import Mathlib

set_option maxHeartbeats 1000000

/-!
Verification of the mega-bridge download orchestrator.

The definitions below are a shallow embedding of the TypeScript sources:
the SQLite-backed persistent store (`src/services/database.ts`, schema in
`migrations/001_initial.sql`) and the download orchestrator
(`src/services/download.ts`).  Tables are lists of rows in rowid order;
SQL timestamps (`new Date().toISOString()`) are threaded as `String`
parameters; the asynchronous transfer of one file is split into its
synchronous start (`downloadStart`) and its terminal outcome callback
(`downloadFinish`).
-/

namespace MegaBridge

/-- The four values of the `status` column of `files`. -/
inductive FileStatus
  | pending
  | downloading
  | completed
  | failed
deriving DecidableEq, Repr

/-- Row of the `folders` table (`migrations/001_initial.sql`). -/
structure FolderRow where
  folder_id : String
  folder_key : String
  name : String
  loaded_at : String
  downloading : Bool
  rate_limited : Bool
  rate_limited_at : Option String
deriving DecidableEq, Repr

/-- Row of the `files` table (`migrations/001_initial.sql`). -/
structure FileRow where
  node_id : String
  folder_id : String
  name : String
  size : Nat
  timestamp : Option Int
  status : FileStatus
  error : Option String
  started_at : Option String
  completed_at : Option String
deriving DecidableEq, Repr

/-- The SQLite database: both tables, each a list of rows in rowid order. -/
structure Db where
  folders : List FolderRow
  files : List FileRow
deriving DecidableEq, Repr

/-- Query `SELECT * FROM folders WHERE folder_id = ?` (`.get`: first match). -/
def Db.getFolder (db : Db) (folderId : String) : Option FolderRow :=
  db.folders.find? (fun f => f.folder_id == folderId)

/-- The `DatabaseService.insertFolder` statement: `INSERT OR REPLACE INTO folders` with
`loaded_at = now`, `downloading = 0`, `rate_limited = 0`,
`rate_limited_at = NULL`. -/
def Db.insertFolder (db : Db) (folderId folderKey name now : String) : Db :=
  { db with folders :=
      db.folders.filter (fun f => !(f.folder_id == folderId)) ++
        [⟨folderId, folderKey, name, now, false, false, none⟩] }

/-- Statement `DELETE FROM folders WHERE folder_id = ?`; the `files` rows of the
folder go with it via `FOREIGN KEY ... ON DELETE CASCADE`
(`foreign_keys = ON` is set in the `DatabaseService` constructor). -/
def Db.deleteFolder (db : Db) (folderId : String) : Db :=
  { folders := db.folders.filter (fun f => !(f.folder_id == folderId)),
    files := db.files.filter (fun f => !(f.folder_id == folderId)) }

/-- Statement `UPDATE folders SET downloading = ? WHERE folder_id = ?`. -/
def Db.setFolderDownloading (db : Db) (folderId : String) (downloading : Bool) : Db :=
  { db with folders := db.folders.map (fun f =>
      if f.folder_id == folderId then { f with downloading := downloading } else f) }

/-- The `DatabaseService.setFolderRateLimited` statement:
`UPDATE folders SET rate_limited = ?, rate_limited_at = ? WHERE folder_id = ?`,
where `rate_limited_at` is `now` when limiting and `NULL` when clearing. -/
def Db.setFolderRateLimited (db : Db) (folderId : String) (limited : Bool) (now : String) : Db :=
  { db with folders := db.folders.map (fun f =>
      if f.folder_id == folderId then
        { f with rate_limited := limited,
                 rate_limited_at := if limited then some now else none }
      else f) }

/-- The `DatabaseService.insertFile` statement: `INSERT OR REPLACE INTO files` with
`status = 'pending'` and null error/timestamps. -/
def Db.insertFile (db : Db) (nodeId folderId name : String) (size : Nat)
    (timestamp : Option Int) : Db :=
  { db with files :=
      db.files.filter (fun f => !(f.folder_id == folderId && f.node_id == nodeId)) ++
        [⟨nodeId, folderId, name, size, timestamp, .pending, none, none, none⟩] }

/-- Query `SELECT * FROM files WHERE folder_id = ? AND node_id = ?` (`.get`). -/
def Db.getFile (db : Db) (folderId nodeId : String) : Option FileRow :=
  db.files.find? (fun f => f.folder_id == folderId && f.node_id == nodeId)

/-- Query `SELECT * FROM files WHERE folder_id = ?`. -/
def Db.getFilesForFolder (db : Db) (folderId : String) : List FileRow :=
  db.files.filter (fun f => f.folder_id == folderId)

/-- Statement `UPDATE files SET status = ?, error = ?, started_at = ?, completed_at = ?
WHERE folder_id = ? AND node_id = ?`. -/
def Db.updateFileStatus (db : Db) (folderId nodeId : String) (status : FileStatus)
    (error : Option String) (startedAt completedAt : Option String) : Db :=
  { db with files := db.files.map (fun f =>
      if f.folder_id == folderId && f.node_id == nodeId then
        { f with status := status, error := error,
                 started_at := startedAt, completed_at := completedAt }
      else f) }

/-- Query `SELECT * FROM files WHERE status = ?`. -/
def Db.getFilesWithStatus (db : Db) (status : FileStatus) : List FileRow :=
  db.files.filter (fun f => f.status == status)

/-- Query `SELECT * FROM files WHERE folder_id = ? AND status = ?`. -/
def Db.getFilesByFolderAndStatus (db : Db) (folderId : String) (status : FileStatus) :
    List FileRow :=
  db.files.filter (fun f => f.folder_id == folderId && f.status == status)

/-- Query `SELECT * FROM folders WHERE rate_limited = 1`. -/
def Db.getRateLimitedFolders (db : Db) : List FolderRow :=
  db.folders.filter (fun f => f.rate_limited)

/-- The `DatabaseService.refreshFolderDownloadingStatus` helper: if no file of the
folder is still `downloading`, persist `downloading = false`. -/
def Db.refreshFolderDownloadingStatus (db : Db) (folderId : String) : Db :=
  let files := db.getFilesForFolder folderId
  let stillDownloading := files.any (fun f => f.status == .downloading)
  if stillDownloading then db else db.setFolderDownloading folderId false

/-- The `DatabaseService.resetInterruptedDownloads` helper: every file found in
`downloading` status is reset to `pending` with cleared error and
timestamps; returns the updated database and the count. -/
def Db.resetInterruptedDownloads (db : Db) : Db × Nat :=
  let downloading := db.getFilesWithStatus .downloading
  (downloading.foldl
    (fun acc file => acc.updateFileStatus file.folder_id file.node_id .pending none none none)
    db,
   downloading.length)

/-- A node of the remote folder tree: the `mega.File` object of megajs
as `helpers/mega.ts` uses it — directory flag, optional node id,
optional download-id parts, optional name, size and timestamp
attributes, and the child nodes. -/
inductive MegaNode where
  | mk (directory : Bool) (nodeId : Option String) (downloadId : Option (List String))
       (name : Option String) (size : Option Nat) (timestamp : Option Int)
       (children : List MegaNode)

/-- The `directory` attribute of a node. -/
def MegaNode.directory : MegaNode → Bool
  | .mk d _ _ _ _ _ _ => d

/-- The `nodeId` attribute of a node. -/
def MegaNode.nodeId : MegaNode → Option String
  | .mk _ n _ _ _ _ _ => n

/-- The `downloadId` attribute of a node. -/
def MegaNode.downloadId : MegaNode → Option (List String)
  | .mk _ _ dl _ _ _ _ => dl

/-- The `name` attribute of a node. -/
def MegaNode.name : MegaNode → Option String
  | .mk _ _ _ nm _ _ _ => nm

/-- The `size` attribute of a node. -/
def MegaNode.size : MegaNode → Option Nat
  | .mk _ _ _ _ sz _ _ => sz

/-- The `timestamp` attribute of a node. -/
def MegaNode.timestamp : MegaNode → Option Int
  | .mk _ _ _ _ _ ts _ => ts

/-- The `children` attribute of a node (`node.children || []`). -/
def MegaNode.children : MegaNode → List MegaNode
  | .mk _ _ _ _ _ _ cs => cs

/-- JavaScript `a || b` for an optional string `a`: undefined and the
empty string are falsy. -/
def jsOr (a : Option String) (b : String) : String :=
  match a with
  | some s => if s = "" then b else s
  | none => b

/-- The `getNodeId` helper of `helpers/mega.ts`:
`file.nodeId || file.downloadId?.[1] || ''`. -/
def getNodeId (file : MegaNode) : String :=
  jsOr file.nodeId (jsOr (file.downloadId.bind (fun l => l.get? 1)) "")

/-- Operation `Map.set` on the node-id map built by `buildFileMap`:
replace in place — the last write for a key wins — or append. -/
def mapSet (m : List (String × MegaNode)) (k : String) (v : MegaNode) :
    List (String × MegaNode) :=
  if m.any (fun p => p.1 == k) then
    m.map (fun p => if p.1 == k then (k, v) else p)
  else m ++ [(k, v)]

/-- Operation `Map.get` on the node-id map. -/
def mapGet (m : List (String × MegaNode)) (k : String) : Option MegaNode :=
  (m.find? (fun p => p.1 == k)).map (fun p => p.2)

mutual

/-- The `collectFiles` helper of `helpers/mega.ts`: recursively collect
every non-directory node of the folder tree, depth first. -/
def collectFiles : MegaNode → List MegaNode
  | .mk _ _ _ _ _ _ children => collectFilesList children

/-- The loop body of `collectFiles` over a node's children. -/
def collectFilesList : List MegaNode → List MegaNode
  | [] => []
  | child :: rest =>
    (if child.directory then collectFiles child else [child]) ++ collectFilesList rest

end

mutual

/-- The `walk` closure of `buildFileMap` (`helpers/mega.ts`): record
every non-directory node of the tree under its computed node id. -/
def buildWalk (m : List (String × MegaNode)) : MegaNode → List (String × MegaNode)
  | .mk _ _ _ _ _ _ children => buildWalkList m children

/-- The loop body of `buildFileMap`'s walk over a node's children. -/
def buildWalkList (m : List (String × MegaNode)) :
    List MegaNode → List (String × MegaNode)
  | [] => m
  | child :: rest =>
    if child.directory then buildWalkList (buildWalk m child) rest
    else buildWalkList (mapSet m (getNodeId child) child) rest

end

/-- The `buildFileMap` helper of `helpers/mega.ts`: the map of node id
to file node for all files under `root`. -/
def buildFileMap (root : MegaNode) : List (String × MegaNode) :=
  buildWalk [] root

/-- A queue entry (`DownloadTask` of `src/types/download.ts`). -/
structure DownloadTask where
  folderId : String
  nodeId : String
  megaFile : MegaNode
  name : String
  size : Nat

/-- The key of a queue entry: which File row it transfers. -/
def DownloadTask.key (t : DownloadTask) : String × String :=
  (t.folderId, t.nodeId)

/-- Semantics of `err.message.includes(needle)`: substring containment on the
character lists of the two strings. -/
def charsInclude (needle : List Char) : List Char → Bool
  | [] => needle.isEmpty
  | c :: cs => needle.isPrefixOf (c :: cs) || charsInclude needle cs

/-- JavaScript `haystack.includes(needle)`. -/
def strIncludes (haystack needle : String) : Bool :=
  charsInclude needle.data haystack.data

/-- The terminal outcome of one transfer, one constructor per terminal
callback of `downloadFile`: remote stream `error`, write stream `finish`,
write stream `error`, and the synchronous `catch` around starting the
transfer. -/
inductive TransferOutcome
  | streamError (msg : String)
  | writeFinish
  | writeError (msg : String)
  | startThrow (msg : String)
deriving DecidableEq, Repr

/-- The synchronous head of `downloadFile`: mark the file `downloading`
with `started_at = startedAt`, and set the folder's downloading flag. -/
def downloadStart (db : Db) (t : DownloadTask) (startedAt : String) : Db :=
  (db.updateFileStatus t.folderId t.nodeId .downloading none (some startedAt) none
    ).setFolderDownloading t.folderId true

/-- The terminal callback of `downloadFile` for outcome `o`, with
`startedAt` the timestamp taken at the start of the transfer and
`completedAt`/`now` the timestamps taken inside the callback. -/
def downloadFinish (db : Db) (t : DownloadTask) (startedAt completedAt now : String)
    (o : TransferOutcome) : Db :=
  match o with
  | .streamError msg =>
    if strIncludes msg "ETOOMANY" || strIncludes msg "Too many" then
      (((db.updateFileStatus t.folderId t.nodeId .pending (some "Rate limited") none none
        ).setFolderRateLimited t.folderId true now
        ).refreshFolderDownloadingStatus t.folderId)
    else
      ((db.updateFileStatus t.folderId t.nodeId .failed (some msg)
          (some startedAt) (some completedAt)
        ).refreshFolderDownloadingStatus t.folderId)
  | .writeFinish =>
    ((db.updateFileStatus t.folderId t.nodeId .completed none
        (some startedAt) (some completedAt)
      ).refreshFolderDownloadingStatus t.folderId)
  | .writeError msg =>
    ((db.updateFileStatus t.folderId t.nodeId .failed (some msg)
        (some startedAt) (some completedAt)
      ).refreshFolderDownloadingStatus t.folderId)
  | .startThrow msg =>
    ((db.updateFileStatus t.folderId t.nodeId .failed (some msg)
        (some startedAt) (some completedAt)
      ).setFolderDownloading t.folderId false)

/-- A sample folder used in concrete witnesses: flag `downloading` set,
not rate limited. -/
def folderF : FolderRow := ⟨"F", "k", "folder", "t0", true, false, none⟩

/-- A sample file of folder `F`, currently in `downloading` status. -/
def fileA : FileRow := ⟨"A", "F", "a.bin", 1, none, .downloading, none, some "s0", none⟩

/-- A second sample file of folder `F`, also `downloading`. -/
def fileB : FileRow := ⟨"B", "F", "b.bin", 2, none, .downloading, none, some "s0", none⟩

/-- Remote leaf node of `fileA`. -/
def remoteA : MegaNode := ⟨false, some "A", none, some "a.bin", some 1, none, []⟩

/-- Remote leaf node of `fileB`. -/
def remoteB : MegaNode := ⟨false, some "B", none, some "b.bin", some 2, none, []⟩

/-- Queue entry transferring `fileA`. -/
def taskA : DownloadTask := ⟨"F", "A", remoteA, "a.bin", 1⟩

/-- Queue entry transferring `fileB`. -/
def taskB : DownloadTask := ⟨"F", "B", remoteB, "b.bin", 2⟩

/-- A store with folder `F` whose two files are both mid-transfer. -/
def dbTwoDownloading : Db := ⟨[folderF], [fileA, fileB]⟩

/-- The File row of `fileA` after its transfer completes. -/
def fileACompleted : FileRow := ⟨"A", "F", "a.bin", 1, none, .completed, none, some "s", some "c"⟩

/-- The `DownloadService.processQueue` loop: while the active count is strictly
below the ceiling and the queue is non-empty, shift the head task,
increment the active count and hand the task to `downloadFile`.
Returns the new active count, the remaining queue, and the tasks whose
transfers were started, in start order. -/
def processQueue (maxC : Nat) (active : Nat) :
    List DownloadTask → Nat × List DownloadTask × List DownloadTask
  | [] => (active, [], [])
  | t :: ts =>
    if active < maxC then
      let r := processQueue maxC (active + 1) ts
      (r.1, r.2.1, t :: r.2.2)
    else (active, t :: ts, [])

/-- Observable scheduler state of `DownloadService`: the in-memory job
queue and active-transfer count, together with the history of started
transfers (in start order) and of enqueued jobs (in enqueue order). -/
structure SchedState where
  queue : List DownloadTask
  active : Nat
  started : List DownloadTask
  enqueued : List DownloadTask

/-- One call of `processQueue` on the service state, recording the
started tasks. -/
def drain (maxC : Nat) (s : SchedState) : SchedState :=
  let r := processQueue maxC s.active s.queue
  { queue := r.2.1, active := r.1, started := s.started ++ r.2.2, enqueued := s.enqueued }

/-- The scheduler's event loop: a public operation pushes a batch of
jobs on the queue tail and calls `processQueue`; the `finally` callback
of a finished transfer decrements the active count (so it fires only
with a positive count) and calls `processQueue` again. -/
inductive SchedStep (maxC : Nat) : SchedState → SchedState → Prop
  | enqueue (q : List DownloadTask) (a : Nat) (st en ts : List DownloadTask) :
      SchedStep maxC ⟨q, a, st, en⟩ (drain maxC ⟨q ++ ts, a, st, en ++ ts⟩)
  | complete (q : List DownloadTask) (a : Nat) (st en : List DownloadTask) :
      SchedStep maxC ⟨q, a + 1, st, en⟩ (drain maxC ⟨q, a, st, en⟩)

/-- States reachable from the fresh service (empty queue, no active
transfer). -/
inductive SchedReachable (maxC : Nat) : SchedState → Prop
  | init : SchedReachable maxC ⟨[], 0, [], []⟩
  | step {s s' : SchedState} : SchedReachable maxC s → SchedStep maxC s s' →
      SchedReachable maxC s'

/-- The error taxonomy of `src/types/errors.ts`, plus the propagation of
a rejected `loadMegaNode` promise. -/
inductive AppErr
  | appError (msg : String)
  | notFoundError (msg : String)
  | conflictError (msg : String)
  | upstreamError (msg : String)
deriving DecidableEq, Repr

/-- The mutable state of one `DownloadService` instance: the persistent
store handle, the in-memory job queue, the active-transfer count and the
folder handle cache (a `Map` in insertion order). -/
structure ServiceState where
  db : Db
  queue : List DownloadTask
  activeDownloads : Nat
  folderCache : List (String × MegaNode)

/-- Operation `Map.get` on the folder cache. -/
def cacheGet (cache : List (String × MegaNode)) (folderId : String) : Option MegaNode :=
  (cache.find? (fun p => p.1 == folderId)).map (fun p => p.2)

/-- Operation `Map.set` on the folder cache: replace in place, or append. -/
def cacheSet (cache : List (String × MegaNode)) (folderId : String) (mf : MegaNode) :
    List (String × MegaNode) :=
  if cache.any (fun p => p.1 == folderId) then
    cache.map (fun p => if p.1 == folderId then (folderId, mf) else p)
  else cache ++ [(folderId, mf)]

/-- Operation `Map.delete` on the folder cache. -/
def cacheDelete (cache : List (String × MegaNode)) (folderId : String) :
    List (String × MegaNode) :=
  cache.filter (fun p => !(p.1 == folderId))

/-- The `DownloadService.ensureFolderLoaded` helper: reuse the cached handle, or
load the folder remotely (the external `loadMegaNode` outcome is the
`load` parameter; `none` models its rejection) and cache it. -/
def ensureFolderLoaded (cache : List (String × MegaNode)) (folderId : String)
    (load : Option MegaNode) : Option (MegaNode × List (String × MegaNode)) :=
  match cacheGet cache folderId with
  | some megaFolder => some (megaFolder, cache)
  | none =>
    match load with
    | some megaFolder => some (megaFolder, cacheSet cache folderId megaFolder)
    | none => none

/-- The handle `ensureFolderLoaded` ends up using: the cached one if
present, otherwise the freshly loaded one. -/
def effectiveHandle (cache : List (String × MegaNode)) (load : String → Option MegaNode)
    (folderId : String) : Option MegaNode :=
  match cacheGet cache folderId with
  | some megaFolder => some megaFolder
  | none => load folderId

/-- The `DownloadService.addFolder` operation.  The result of
`parseMegaFolderUrl` (`helpers/mega.ts`) is the opaque `parsed`
parameter (`(folderId, folderKey)` on success) — the theorems quantify
over all parse outcomes; the outcome of the awaited external
`loadMegaFolder` network call is `loadResult`.  On success, returns
`(folderId, name, fileCount)`, the new state, and the tasks handed to
`downloadFile` by the final `processQueue` call; a throw returns the
error with the state at the throw point. -/
def addFolder (st : ServiceState) (maxC : Nat) (parsed : Option (String × String))
    (loadResult : Option MegaNode) (now : String) :
    Except (AppErr × ServiceState) ((String × String × Nat) × ServiceState × List DownloadTask) :=
  match parsed with
  | none => .error (.appError "Invalid MEGA folder URL", st)
  | some (folderId, folderKey) =>
    if (st.db.getFolder folderId).isSome then
      .error (.conflictError "Folder already loaded", st)
    else
      match loadResult with
      | none => .error (.upstreamError "loadMegaFolder rejected", st)
      | some megaFolder =>
        let folderName := jsOr megaFolder.name folderId
        let db1 := st.db.insertFolder folderId folderKey folderName now
        let cache1 := cacheSet st.folderCache folderId megaFolder
        let files := collectFiles megaFolder
        let db2 := files.foldl (fun acc file =>
          acc.insertFile (getNodeId file) folderId (jsOr file.name "unknown")
            (file.size.getD 0)
            (match file.timestamp with
             | some t => if t = 0 then none else some t
             | none => none)) db1
        let queue1 := st.queue ++ files.map (fun file =>
          (⟨folderId, getNodeId file, file, jsOr file.name "unknown",
            file.size.getD 0⟩ : DownloadTask))
        let r := processQueue maxC st.activeDownloads queue1
        .ok ((folderId, folderName, files.length), ⟨db2, r.2.1, r.1, cache1⟩, r.2.2)

/-- Operation `queue.splice(i, 1)`. -/
def spliceOne (q : List DownloadTask) (i : Nat) : List DownloadTask :=
  q.take i ++ q.drop (i + 1)

/-- The backward removal loop of `removeFolder`
(`for (let i = queue.length - 1; i >= 0; i--)`): `stripLoop folderId q (i + 1)`
processes indices `i, i - 1, …, 0`, splicing out entries of the folder. -/
def stripLoop (folderId : String) (q : List DownloadTask) : Nat → List DownloadTask
  | 0 => q
  | i + 1 =>
    match q.get? i with
    | some t =>
      stripLoop folderId (if t.folderId == folderId then spliceOne q i else q) i
    | none => stripLoop folderId q i

/-- The whole queue strip of `removeFolder`, starting at the last index. -/
def removeQueuedTasks (folderId : String) (q : List DownloadTask) : List DownloadTask :=
  stripLoop folderId q q.length

/-- The externally visible effects of `removeFolder`, in program order. -/
inductive RemoveEffect
  | stripQueue (folderId : String)
  | deleteDisk (path : String)
  | deleteRows (folderId : String)
deriving DecidableEq, Repr

/-- The `DownloadService.removeFolder` operation: after the not-found check, strip the
folder's queued tasks, delete its directory tree
(`path.join(downloadDir, folderId)`), delete its rows, drop its cache
entry.  The effect trace records the program order of the three
destructive steps. -/
def removeFolder (st : ServiceState) (downloadDir folderId : String) :
    Except (AppErr × ServiceState) (ServiceState × List RemoveEffect) :=
  match st.db.getFolder folderId with
  | none => .error (.notFoundError "Folder not found", st)
  | some _ =>
    let queue1 := removeQueuedTasks folderId st.queue
    let db1 := st.db.deleteFolder folderId
    let cache1 := cacheDelete st.folderCache folderId
    .ok (⟨db1, queue1, st.activeDownloads, cache1⟩,
      [.stripQueue folderId, .deleteDisk (downloadDir ++ "/" ++ folderId),
       .deleteRows folderId])

/-- The files a retry collects: the folder's `failed` rows followed by
its `pending` rows (`[...failed, ...pending]`). -/
def retryCandidates (db : Db) (folderId : String) : List FileRow :=
  db.getFilesByFolderAndStatus folderId .failed ++
    db.getFilesByFolderAndStatus folderId .pending

/-- The jobs a retry or resume enqueues for one folder: one per
candidate file whose node id resolves in the `buildFileMap` of the
fresh listing; unresolvable ones are silently skipped. -/
def retryJobs (megaFolder : MegaNode) (folderId : String) (files : List FileRow) :
    List DownloadTask :=
  let filesMap := buildFileMap megaFolder
  files.filterMap (fun file =>
    (mapGet filesMap file.node_id).map (fun megaFile =>
      (⟨folderId, file.node_id, megaFile, file.name, file.size⟩ : DownloadTask)))

/-- The `DownloadService.retryFolder` operation: not-found check, clear the rate-limit
flag, collect failed+pending rows; if none, return 0; otherwise load
the handle, reset each candidate to `pending`, enqueue the resolvable
ones and drain.  Returns the count, the new state and the started
tasks. -/
def retryFolder (st : ServiceState) (maxC : Nat) (folderId : String)
    (loadResult : Option MegaNode) (now : String) :
    Except (AppErr × ServiceState) (Nat × ServiceState × List DownloadTask) :=
  match st.db.getFolder folderId with
  | none => .error (.notFoundError "Folder not found", st)
  | some _ =>
    let db1 := st.db.setFolderRateLimited folderId false now
    let filesToRetry := retryCandidates db1 folderId
    if filesToRetry.isEmpty then
      .ok (0, ⟨db1, st.queue, st.activeDownloads, st.folderCache⟩, [])
    else
      match ensureFolderLoaded st.folderCache folderId loadResult with
      | none => .error (.upstreamError "loadMegaNode rejected",
          ⟨db1, st.queue, st.activeDownloads, st.folderCache⟩)
      | some (megaFolder, cache1) =>
        let db2 := filesToRetry.foldl (fun acc file =>
          acc.updateFileStatus folderId file.node_id .pending none none none) db1
        let queue1 := st.queue ++ retryJobs megaFolder folderId filesToRetry
        let r := processQueue maxC st.activeDownloads queue1
        .ok (filesToRetry.length, ⟨db2, r.2.1, r.1, cache1⟩, r.2.2)

/-- A service whose store already holds folder `F`. -/
def stWithF : ServiceState := ⟨dbTwoDownloading, [], 0, []⟩

/-- A queued task of an unrelated folder `G`. -/
def taskG : DownloadTask := ⟨"G", "Z", ⟨false, some "Z", none, some "z", some 1, none, []⟩, "z", 1⟩

/-- A service with tasks of folders `F` and `G` queued. -/
def stRemove : ServiceState := ⟨dbTwoDownloading, [taskA, taskG, taskB], 0, []⟩

/-- A store with folder `F` whose single file is `completed`. -/
def dbRetryEmpty : Db := ⟨[folderF], [fileACompleted]⟩

/-- A service over `dbRetryEmpty` with an unrelated task queued. -/
def stRetryEmpty : ServiceState := ⟨dbRetryEmpty, [taskG], 1, []⟩

/-- A `failed` file of folder `F` whose node id is gone remotely. -/
def fileFailedX : FileRow := ⟨"X", "F", "x.bin", 3, none, .failed, some "boom",
  some "s0", some "c0"⟩

/-- A store with folder `F` and only `fileFailedX`. -/
def dbRetryX : Db := ⟨[folderF], [fileFailedX]⟩

/-- A fresh service over `dbRetryX`. -/
def stRetryX : ServiceState := ⟨dbRetryX, [], 0, []⟩

/-- A fresh remote listing in which node `X` no longer exists. -/
def mfEmpty : MegaNode := ⟨true, some "RT", none, some "folder", none, none, []⟩

/-- The composite primary key of a `files` row. -/
def fileKey (f : FileRow) : String × String :=
  (f.folder_id, f.node_id)

/-- The column values `resetInterruptedDownloads` writes into a row:
`pending`, cleared error and timestamps. -/
def pendReset (f : FileRow) : FileRow :=
  { f with status := .pending, error := none, started_at := none, completed_at := none }

/-- What the reset does to one row: rows found `downloading` go back to
a clean `pending`, all others are untouched. -/
def resetRow (f : FileRow) : FileRow :=
  if f.status == .downloading then pendReset f else f

/-- Semantics of `[...new Set(list)]`: deduplication keeping first occurrences in
order. -/
def insertSet (seen : List String) (x : String) : List String :=
  if seen.contains x then seen else seen ++ [x]

/-- JavaScript `Set` iteration order over a list of strings. -/
def jsSetOrder (l : List String) : List String :=
  l.foldl insertSet []

/-- The per-folder body of the `resumeDownloads` loop: skip folders
missing from the store; try the cached handle or a fresh load, skipping
the folder when loading rejects (the `catch`); otherwise enqueue one
job per pending file of the folder whose node id resolves. -/
def resumeFolderLoop (load : String → Option MegaNode) (db1 : Db)
    (pending : List FileRow) :
    List String → List (String × MegaNode) → List DownloadTask →
      List (String × MegaNode) × List DownloadTask
  | [], cache, queue => (cache, queue)
  | folderId :: rest, cache, queue =>
    match db1.getFolder folderId with
    | none => resumeFolderLoop load db1 pending rest cache queue
    | some _ =>
      match ensureFolderLoaded cache folderId (load folderId) with
      | none => resumeFolderLoop load db1 pending rest cache queue
      | some (megaFolder, cache') =>
        resumeFolderLoop load db1 pending rest cache'
          (queue ++ retryJobs megaFolder folderId
            (pending.filter (fun f => f.folder_id == folderId)))

/-- The `DownloadService.resumeDownloads` operation: reset orphaned `downloading`
rows, collect the distinct folders of the pending rows, enqueue the
resolvable pending files folder by folder, then drain.  Returns the new
state and the tasks handed to `downloadFile`. -/
def resumeDownloads (st : ServiceState) (maxC : Nat)
    (load : String → Option MegaNode) : ServiceState × List DownloadTask :=
  let db1 := st.db.resetInterruptedDownloads.1
  let pending := db1.getFilesWithStatus .pending
  let folderIds := jsSetOrder (pending.map (fun f => f.folder_id))
  let r0 := resumeFolderLoop load db1 pending folderIds st.folderCache st.queue
  let r := processQueue maxC st.activeDownloads r0.2
  (⟨db1, r.2.1, r.1, r0.1⟩, r.2.2)

/-- The jobs the resume loop produces for one folder, as a function of
the handle it ends up using. -/
def resumeJobsFor (db1 : Db) (pending : List FileRow) (handle : Option MegaNode)
    (folderId : String) : List DownloadTask :=
  match db1.getFolder folderId with
  | none => []
  | some _ =>
    match handle with
    | none => []
    | some megaFolder =>
      retryJobs megaFolder folderId (pending.filter (fun f => f.folder_id == folderId))

/-- A pending file `P` of folder `F`. -/
def filePendP : FileRow := ⟨"P", "F", "p.bin", 4, none, .pending, none, none, none⟩

/-- Remote descriptor of `filePendP`. -/
def remoteP : MegaNode := ⟨false, some "P", none, some "p.bin", some 4, none, []⟩

/-- A crashed store: one `downloading` file and one `pending` file. -/
def dbResume : Db := ⟨[folderF], [fileA, filePendP]⟩

/-- The freshly started service over `dbResume`. -/
def stResume : ServiceState := ⟨dbResume, [], 0, []⟩

/-- The fresh listing of folder `F`, holding both node ids. -/
def mfResume : MegaNode := ⟨true, some "RT", none, some "folder", none, none, [remoteA, remoteP]⟩

/-- The external loader used in the resume witness. -/
def loadResume : String → Option MegaNode := fun _ => some mfResume

/-- Lemma: `find?` commutes with a map that preserves the predicate. -/
theorem find?_map_stable {α : Type} (g : α → α) (p : α → Bool)
    (h : ∀ a, p (g a) = p a) :
    ∀ l : List α, (l.map g).find? p = (l.find? p).map g := by
  intro l
  induction l with
  | nil => rfl
  | cons a l ih =>
    simp only [List.map_cons, List.find?, h a]
    cases hp : p a <;> simp [ih]

theorem Db.files_setFolderDownloading (db : Db) (folderId : String) (b : Bool) :
    (db.setFolderDownloading folderId b).files = db.files := rfl

theorem Db.files_setFolderRateLimited (db : Db) (folderId : String) (limited : Bool)
    (now : String) : (db.setFolderRateLimited folderId limited now).files = db.files := rfl

theorem Db.files_refresh (db : Db) (folderId : String) :
    (db.refreshFolderDownloadingStatus folderId).files = db.files := by
  simp only [Db.refreshFolderDownloadingStatus]
  split
  · rfl
  · rfl

theorem Db.folders_updateFileStatus (db : Db) (folderId nodeId : String) (s : FileStatus)
    (e : Option String) (sa ca : Option String) :
    (db.updateFileStatus folderId nodeId s e sa ca).folders = db.folders := rfl

theorem Db.getFile_congr {db1 db2 : Db} (h : db1.files = db2.files)
    (folderId nodeId : String) : db1.getFile folderId nodeId = db2.getFile folderId nodeId := by
  simp only [Db.getFile, h]

theorem Db.getFolder_congr {db1 db2 : Db} (h : db1.folders = db2.folders)
    (folderId : String) : db1.getFolder folderId = db2.getFolder folderId := by
  simp only [Db.getFolder, h]

/-- Reading back the updated file row: the update rewrites exactly the
status, error and timestamp columns of the matching row. -/
theorem Db.getFile_update_self (db : Db) (folderId nodeId : String) (s : FileStatus)
    (e : Option String) (sa ca : Option String) :
    (db.updateFileStatus folderId nodeId s e sa ca).getFile folderId nodeId =
      (db.getFile folderId nodeId).map (fun f =>
        { f with status := s, error := e, started_at := sa, completed_at := ca }) := by
  simp only [Db.updateFileStatus, Db.getFile]
  rw [find?_map_stable]
  · cases hf : db.files.find? (fun f => f.folder_id == folderId && f.node_id == nodeId) with
    | none => rfl
    | some f0 =>
      have hp := List.find?_some hf
      simp only [beq_iff_eq, Bool.and_eq_true] at hp
      simp [hp.1, hp.2]
  · intro a
    cases hp : (a.folder_id == folderId && a.node_id == nodeId) <;> simp [hp]

/-- Reading back the updated folder row after setting the rate-limit flag. -/
theorem Db.getFolder_setFolderRateLimited_self (db : Db) (folderId : String)
    (limited : Bool) (now : String) :
    (db.setFolderRateLimited folderId limited now).getFolder folderId =
      (db.getFolder folderId).map (fun g =>
        { g with rate_limited := limited,
                 rate_limited_at := if limited then some now else none }) := by
  simp only [Db.setFolderRateLimited, Db.getFolder]
  rw [find?_map_stable]
  · cases hf : db.folders.find? (fun f => f.folder_id == folderId) with
    | none => rfl
    | some g0 =>
      have hp := List.find?_some hf
      simp only [beq_iff_eq] at hp
      simp [hp]
  · intro a
    cases hp : (a.folder_id == folderId) <;> simp [hp]

/-- Reading back the updated folder row after setting the downloading flag. -/
theorem Db.getFolder_setFolderDownloading_self (db : Db) (folderId : String) (b : Bool) :
    (db.setFolderDownloading folderId b).getFolder folderId =
      (db.getFolder folderId).map (fun g => { g with downloading := b }) := by
  simp only [Db.setFolderDownloading, Db.getFolder]
  rw [find?_map_stable]
  · cases hf : db.folders.find? (fun f => f.folder_id == folderId) with
    | none => rfl
    | some g0 =>
      have hp := List.find?_some hf
      simp only [beq_iff_eq] at hp
      simp [hp]
  · intro a
    cases hp : (a.folder_id == folderId) <;> simp [hp]

/-- The refresh helper never changes the rate-limit columns of a folder. -/
theorem Db.getFolder_refresh_rateLimited (db : Db) (folderId fid2 : String) (g : FolderRow)
    (h : db.getFolder fid2 = some g) :
    ∃ g', (db.refreshFolderDownloadingStatus folderId).getFolder fid2 = some g' ∧
      g'.rate_limited = g.rate_limited ∧ g'.rate_limited_at = g.rate_limited_at := by
  simp only [Db.refreshFolderDownloadingStatus]
  split
  · exact ⟨g, h, rfl, rfl⟩
  · simp only [Db.setFolderDownloading, Db.getFolder] at h ⊢
    rw [find?_map_stable]
    · rw [h]
      by_cases hgf : g.folder_id = folderId <;> simp [hgf]
    · intro a
      cases hp : (a.folder_id == folderId) <;> simp [hp]

/-- Reading the row written by `updateFileStatus`: its status, error and
completion timestamp are the written ones. -/
theorem terminal_fields_aux (db : Db) (fid nid : String) (s : FileStatus)
    (e sa2 ca2 : Option String) (f' : FileRow)
    (h : (db.updateFileStatus fid nid s e sa2 ca2).getFile fid nid = some f') :
    f'.status = s ∧ f'.error = e ∧ f'.completed_at = ca2 := by
  rw [Db.getFile_update_self] at h
  cases hdb : db.getFile fid nid with
  | none => rw [hdb] at h; cases h
  | some f0 =>
    rw [hdb, Option.map_some'] at h
    cases h
    exact ⟨rfl, rfl, rfl⟩

/-- C2: a transfer of a file that fails with an error message matching
the rate-limit signature (containing `ETOOMANY` or `Too many`) puts the
File row back to `pending` with error `Rate limited`, and the Folder row
becomes `rateLimited = true` with a non-null `rateLimitedAt`. -/
theorem rateLimit_signature_outcome (db : Db) (t : DownloadTask)
    (sa ca now msg : String) (f : FileRow) (g : FolderRow)
    (hf : db.getFile t.folderId t.nodeId = some f)
    (hg : db.getFolder t.folderId = some g)
    (hmsg : (strIncludes msg "ETOOMANY" || strIncludes msg "Too many") = true) :
    (∃ f', (downloadFinish db t sa ca now (.streamError msg)).getFile t.folderId t.nodeId
        = some f' ∧ f'.status = .pending ∧ f'.error = some "Rate limited") ∧
    (∃ g', (downloadFinish db t sa ca now (.streamError msg)).getFolder t.folderId
        = some g' ∧ g'.rate_limited = true ∧ g'.rate_limited_at = some now) := by
  have hfin : downloadFinish db t sa ca now (.streamError msg) =
      ((db.updateFileStatus t.folderId t.nodeId .pending (some "Rate limited") none none
        ).setFolderRateLimited t.folderId true now
        ).refreshFolderDownloadingStatus t.folderId := by
    simp only [downloadFinish]
    rw [if_pos hmsg]
  rw [hfin]
  constructor
  · rw [Db.getFile_congr (Db.files_refresh _ _),
      Db.getFile_congr (Db.files_setFolderRateLimited _ _ _ _),
      Db.getFile_update_self, hf, Option.map_some']
    exact ⟨_, rfl, rfl, rfl⟩
  · have hg2 : ((db.updateFileStatus t.folderId t.nodeId .pending (some "Rate limited") none none
        ).setFolderRateLimited t.folderId true now).getFolder t.folderId =
        some { g with rate_limited := true, rate_limited_at := some now } := by
      rw [Db.getFolder_setFolderRateLimited_self,
        Db.getFolder_congr (Db.folders_updateFileStatus _ _ _ _ _ _ _), hg, Option.map_some']
      simp
    obtain ⟨g', hgr, h1, h2⟩ :=
      Db.getFolder_refresh_rateLimited _ t.folderId t.folderId _ hg2
    exact ⟨g', hgr, by rw [h1], by rw [h2]⟩

/-- Witness for C2 at a concrete store: folder `F`, file `A`
mid-transfer, stream error message carrying the `ETOOMANY` signature. -/
theorem rateLimit_signature_outcome_witness :
    (∃ f', (downloadFinish dbTwoDownloading taskA "s" "c" "n"
        (.streamError "ETOOMANY (-6)")).getFile "F" "A"
        = some f' ∧ f'.status = .pending ∧ f'.error = some "Rate limited") ∧
    (∃ g', (downloadFinish dbTwoDownloading taskA "s" "c" "n"
        (.streamError "ETOOMANY (-6)")).getFolder "F"
        = some g' ∧ g'.rate_limited = true ∧ g'.rate_limited_at = some "n") :=
  rateLimit_signature_outcome dbTwoDownloading taskA "s" "c" "n" "ETOOMANY (-6)"
    fileA folderF rfl rfl (by decide)

/-- C4: the row written by a terminal transfer outcome satisfies the
column invariants: `failed` comes with a non-null error and a non-null
completion timestamp, `completed` with a non-null completion timestamp
and a null error. -/
theorem terminal_outcome_fields (db : Db) (t : DownloadTask) (sa ca now : String)
    (o : TransferOutcome) (f' : FileRow)
    (h : (downloadFinish db t sa ca now o).getFile t.folderId t.nodeId = some f') :
    (f'.status = .failed → f'.error ≠ none ∧ f'.completed_at ≠ none) ∧
    (f'.status = .completed → f'.completed_at ≠ none ∧ f'.error = none) := by
  cases o with
  | streamError msg =>
    simp only [downloadFinish] at h
    by_cases hrl : (strIncludes msg "ETOOMANY" || strIncludes msg "Too many") = true
    · rw [if_pos hrl, Db.getFile_congr (Db.files_refresh _ _)] at h
      obtain ⟨h1, h2, h3⟩ := terminal_fields_aux _ _ _ _ _ _ _ _ h
      constructor
      · intro hfail
        rw [h1] at hfail
        exact absurd hfail (by decide)
      · intro hcomp
        rw [h1] at hcomp
        exact absurd hcomp (by decide)
    · rw [if_neg hrl, Db.getFile_congr (Db.files_refresh _ _)] at h
      obtain ⟨h1, h2, h3⟩ := terminal_fields_aux _ _ _ _ _ _ _ _ h
      constructor
      · intro _
        rw [h2, h3]
        exact ⟨by simp, by simp⟩
      · intro hcomp
        rw [h1] at hcomp
        exact absurd hcomp (by decide)
  | writeFinish =>
    simp only [downloadFinish] at h
    rw [Db.getFile_congr (Db.files_refresh _ _)] at h
    obtain ⟨h1, h2, h3⟩ := terminal_fields_aux _ _ _ _ _ _ _ _ h
    constructor
    · intro hfail
      rw [h1] at hfail
      exact absurd hfail (by decide)
    · intro _
      rw [h2, h3]
      exact ⟨by simp, rfl⟩
  | writeError msg =>
    simp only [downloadFinish] at h
    rw [Db.getFile_congr (Db.files_refresh _ _)] at h
    obtain ⟨h1, h2, h3⟩ := terminal_fields_aux _ _ _ _ _ _ _ _ h
    constructor
    · intro _
      rw [h2, h3]
      exact ⟨by simp, by simp⟩
    · intro hcomp
      rw [h1] at hcomp
      exact absurd hcomp (by decide)
  | startThrow msg =>
    simp only [downloadFinish] at h
    rw [Db.getFile_congr (Db.files_setFolderDownloading _ _ _)] at h
    obtain ⟨h1, h2, h3⟩ := terminal_fields_aux _ _ _ _ _ _ _ _ h
    constructor
    · intro _
      rw [h2, h3]
      exact ⟨by simp, by simp⟩
    · intro hcomp
      rw [h1] at hcomp
      exact absurd hcomp (by decide)

/-- Witness for C4 at a concrete store: the `finish` outcome of `fileA`. -/
theorem terminal_outcome_fields_witness :
    (fileACompleted.status = .failed →
      fileACompleted.error ≠ none ∧ fileACompleted.completed_at ≠ none) ∧
    (fileACompleted.status = .completed →
      fileACompleted.completed_at ≠ none ∧ fileACompleted.error = none) :=
  terminal_outcome_fields dbTwoDownloading taskA "s" "c" "n" .writeFinish fileACompleted rfl

/-- C1 fails on the code: when starting the transfer of `fileB` throws
synchronously, the `catch` branch of `downloadFile` writes
`downloading = false` on folder `F` unconditionally, although `fileA`
of the same folder is still in `downloading` status — the flag is not
recomputed from the File rows on this terminal outcome. -/
theorem downloading_flag_stale_after_startThrow :
    ((downloadFinish dbTwoDownloading taskB "s" "c" "n" (.startThrow "ENOENT")).getFile
        "F" "A").map (fun f => f.status) = some .downloading ∧
    ((downloadFinish dbTwoDownloading taskB "s" "c" "n" (.startThrow "ENOENT")).getFolder
        "F").map (fun g => g.downloading) = some false := by
  decide

/-- The drain loop only splits the queue: started tasks followed by the
remaining queue give back the original queue. -/
theorem processQueue_partition (maxC : Nat) :
    ∀ (q : List DownloadTask) (active : Nat),
      (processQueue maxC active q).2.2 ++ (processQueue maxC active q).2.1 = q := by
  intro q
  induction q with
  | nil => intro active; rfl
  | cons t ts ih =>
    intro active
    simp only [processQueue]
    split
    · simp [ih (active + 1)]
    · rfl

/-- The drain loop starts the first `maxC - active` queued tasks, in
queue order. -/
theorem processQueue_started_take (maxC : Nat) :
    ∀ (q : List DownloadTask) (active : Nat),
      (processQueue maxC active q).2.2 = q.take (maxC - active) := by
  intro q
  induction q with
  | nil => intro active; simp [processQueue]
  | cons t ts ih =>
    intro active
    simp only [processQueue]
    split
    · have hsub : maxC - active = (maxC - (active + 1)) + 1 := by omega
      simp [ih (active + 1), hsub]
    · have hsub : maxC - active = 0 := by omega
      simp [hsub]

/-- The drain loop leaves the queue tail past the started ones. -/
theorem processQueue_queue_drop (maxC : Nat) :
    ∀ (q : List DownloadTask) (active : Nat),
      (processQueue maxC active q).2.1 = q.drop (maxC - active) := by
  intro q
  induction q with
  | nil => intro active; simp [processQueue]
  | cons t ts ih =>
    intro active
    simp only [processQueue]
    split
    · have hsub : maxC - active = (maxC - (active + 1)) + 1 := by omega
      simp [ih (active + 1), hsub]
    · have hsub : maxC - active = 0 := by omega
      simp [hsub]

/-- The drain loop never pushes the active count past the ceiling. -/
theorem processQueue_active_le (maxC : Nat) :
    ∀ (q : List DownloadTask) (active : Nat), active ≤ maxC →
      (processQueue maxC active q).1 ≤ maxC := by
  intro q
  induction q with
  | nil => intro active h; exact h
  | cons t ts ih =>
    intro active h
    simp only [processQueue]
    split
    · exact ih (active + 1) (by omega)
    · exact h

/-- Draining preserves the ceiling bound on the active count. -/
theorem drain_active_le (maxC : Nat) (s : SchedState) (h : s.active ≤ maxC) :
    (drain maxC s).active ≤ maxC :=
  processQueue_active_le maxC s.queue s.active h

/-- Draining preserves the FIFO bookkeeping identity. -/
theorem drain_fifo (maxC : Nat) (s : SchedState)
    (h : s.enqueued = s.started ++ s.queue) :
    (drain maxC s).enqueued = (drain maxC s).started ++ (drain maxC s).queue := by
  simp only [drain, List.append_assoc]
  rw [processQueue_partition maxC s.queue s.active, h]

/-- C3: in every reachable scheduler state the number of concurrently
active transfers is at most the configured ceiling
`maxConcurrentDownloads`: the drain loop starts a transfer only while
the count is strictly below the ceiling, incrementing it on start, and
completion decrements it. -/
theorem active_le_ceiling (maxC : Nat) (s : SchedState)
    (h : SchedReachable maxC s) : s.active ≤ maxC := by
  induction h with
  | init => exact Nat.zero_le _
  | step hr hs ih =>
    cases hs with
    | enqueue q a st en ts => exact drain_active_le maxC _ ih
    | complete q a st en => exact drain_active_le maxC _ (by simp at ih ⊢; omega)

/-- Witness for C3: the fresh service with ceiling 2. -/
theorem active_le_ceiling_witness :
    (⟨[], 0, [], []⟩ : SchedState).active ≤ 2 :=
  active_le_ceiling 2 _ SchedReachable.init

/-- C7: strict FIFO — in every reachable scheduler state the enqueue
history equals the start history followed by the still-queued jobs:
jobs are started exactly in enqueue order (enqueue appends to the tail,
the drain loop shifts from the head, nothing reorders). -/
theorem fifo_start_order (maxC : Nat) (s : SchedState)
    (h : SchedReachable maxC s) : s.enqueued = s.started ++ s.queue := by
  induction h with
  | init => rfl
  | step hr hs ih =>
    cases hs with
    | enqueue q a st en ts =>
      refine drain_fifo maxC _ ?_
      simp only at ih ⊢
      rw [ih, List.append_assoc]
    | complete q a st en =>
      refine drain_fifo maxC _ ?_
      simpa using ih

/-- Witness for C7: one enqueue of one job with ceiling 1, drained. -/
theorem fifo_start_order_witness :
    (drain 1 ⟨[taskA], 0, [], [taskA]⟩).enqueued =
      (drain 1 ⟨[taskA], 0, [], [taskA]⟩).started ++ (drain 1 ⟨[taskA], 0, [], [taskA]⟩).queue :=
  fifo_start_order 1 _
    (SchedReachable.step SchedReachable.init (SchedStep.enqueue [] 0 [] [] [taskA]))

/-- C9: both synchronous error paths of `addFolder` — URL fails to
parse, or a folder with the same identifier already exists — throw
before any mutation: the state carried out with the error is exactly
the state on entry (no Folder/File row inserted, no job enqueued,
cache untouched). -/
theorem addFolder_sync_error_atomic (st : ServiceState) (maxC : Nat)
    (parsed : Option (String × String)) (load : Option MegaNode) (now : String)
    (h : parsed = none ∨ ∃ p, parsed = some p ∧ (st.db.getFolder p.1).isSome = true) :
    ∃ e, addFolder st maxC parsed load now = Except.error (e, st) := by
  rcases h with h | ⟨⟨fid, key⟩, hp, hf⟩
  · subst h
    exact ⟨.appError "Invalid MEGA folder URL", rfl⟩
  · subst hp
    refine ⟨.conflictError "Folder already loaded", ?_⟩
    simp only [addFolder]
    rw [if_pos hf]

/-- Witness for C9: loading `F` again conflicts and leaves the state. -/
theorem addFolder_sync_error_atomic_witness :
    ∃ e, addFolder stWithF 2 (some ("F", "k2")) none "t1" = Except.error (e, stWithF) :=
  addFolder_sync_error_atomic stWithF 2 (some ("F", "k2")) none "t1"
    (Or.inr ⟨("F", "k2"), rfl, rfl⟩)

/-- The backward splice loop processed down to index `i` filters the
first `i` entries and leaves the rest. -/
theorem stripLoop_eq (fid : String) :
    ∀ (i : Nat) (q : List DownloadTask), i ≤ q.length →
      stripLoop fid q i =
        (q.take i).filter (fun t => !(t.folderId == fid)) ++ q.drop i := by
  intro i
  induction i with
  | zero => intro q h; simp [stripLoop]
  | succ i ih =>
    intro q h
    have hi : i < q.length := by omega
    cases hget : q.get? i with
    | none =>
      exfalso
      rw [List.get?_eq_getElem?, List.getElem?_eq_getElem hi] at hget
      cases hget
    | some t =>
      have ht : q[i] = t := by
        rw [List.get?_eq_getElem?, List.getElem?_eq_getElem hi] at hget
        injection hget
      simp only [stripLoop, hget]
      by_cases hfid : (t.folderId == fid) = true
      · rw [if_pos hfid]
        have hlt : (spliceOne q i).length = q.length - 1 := by
          simp [spliceOne]
          omega
        rw [ih (spliceOne q i) (by omega)]
        have htake : (spliceOne q i).take i = q.take i :=
          List.take_left' (by simp [List.length_take]; omega)
        have hdrop : (spliceOne q i).drop i = q.drop (i + 1) :=
          List.drop_left' (by simp [List.length_take]; omega)
        rw [htake, hdrop]
        congr 1
        rw [List.take_succ, List.getElem?_eq_getElem hi, ht]
        simp [List.filter_append, hfid]
      · rw [if_neg hfid]
        rw [ih q (by omega)]
        rw [List.take_succ, List.getElem?_eq_getElem hi, ht,
          List.drop_eq_getElem_cons hi, ht]
        simp only [Bool.not_eq_true] at hfid
        simp [List.filter_append, hfid]

/-- The whole backward splice loop of `removeFolder` removes exactly
the entries of the removed folder, preserving the rest in order. -/
theorem removeQueuedTasks_eq_filter (fid : String) (q : List DownloadTask) :
    removeQueuedTasks fid q = q.filter (fun t => !(t.folderId == fid)) := by
  rw [removeQueuedTasks, stripLoop_eq fid q.length q le_rfl, List.take_length,
    List.drop_length, List.append_nil]

/-- C6: removing a present folder succeeds with an effect trace whose
first step is the queue strip, before the disk delete and the store
delete; the new queue is exactly the old one without that folder's
entries, all other folders' entries kept in their original relative
order. -/
theorem removeFolder_spec (st : ServiceState) (dir fid : String) (g : FolderRow)
    (hg : st.db.getFolder fid = some g) :
    ∃ st', removeFolder st dir fid =
        .ok (st', [.stripQueue fid, .deleteDisk (dir ++ "/" ++ fid), .deleteRows fid]) ∧
      st'.queue = st.queue.filter (fun t => !(t.folderId == fid)) := by
  refine ⟨⟨st.db.deleteFolder fid, removeQueuedTasks fid st.queue, st.activeDownloads,
    cacheDelete st.folderCache fid⟩, ?_, ?_⟩
  · simp only [removeFolder, hg]
  · exact removeQueuedTasks_eq_filter fid st.queue

/-- Witness for C6: removing `F` keeps exactly `G`'s task, in place. -/
theorem removeFolder_spec_witness :
    ∃ st', removeFolder stRemove "d" "F" =
        .ok (st', [.stripQueue "F", .deleteDisk ("d" ++ "/" ++ "F"), .deleteRows "F"]) ∧
      st'.queue = stRemove.queue.filter (fun t => !(t.folderId == "F")) :=
  removeFolder_spec stRemove "d" "F" folderF rfl

/-- C8: a retry on an existing folder with no `failed` and no `pending`
file returns count 0 and leaves the job queue (and active count)
untouched: no job enqueued, none removed, nothing started. -/
theorem retryFolder_empty_noop (st : ServiceState) (maxC : Nat) (fid : String)
    (load : Option MegaNode) (now : String) (g : FolderRow)
    (hg : st.db.getFolder fid = some g)
    (hempty : retryCandidates st.db fid = []) :
    retryFolder st maxC fid load now =
      .ok (0, ⟨st.db.setFolderRateLimited fid false now, st.queue, st.activeDownloads,
        st.folderCache⟩, []) := by
  have hempty1 : retryCandidates (st.db.setFolderRateLimited fid false now) fid = [] :=
    hempty
  simp only [retryFolder, hg, hempty1]
  rfl

/-- Witness for C8 at a concrete store. -/
theorem retryFolder_empty_noop_witness :
    retryFolder stRetryEmpty 2 "F" none "t1" =
      .ok (0, ⟨dbRetryEmpty.setFolderRateLimited "F" false "t1", [taskG], 1, []⟩, []) :=
  retryFolder_empty_noop stRetryEmpty 2 "F" none "t1" folderF rfl rfl

/-- C10: a retry that proceeds returns the total number of the folder's
`failed` plus `pending` rows, while the jobs actually enqueued are only
the candidates whose node id resolves in the fresh listing — so the
returned count bounds, and can strictly exceed, the number of added
jobs. -/
theorem retryFolder_count (st : ServiceState) (maxC : Nat) (fid : String)
    (load : Option MegaNode) (now : String) (g : FolderRow) (mf : MegaNode)
    (cache1 : List (String × MegaNode))
    (hg : st.db.getFolder fid = some g)
    (hne : retryCandidates st.db fid ≠ [])
    (hload : ensureFolderLoaded st.folderCache fid load = some (mf, cache1)) :
    ∃ st' started, retryFolder st maxC fid load now =
        .ok ((retryCandidates st.db fid).length, st', started) ∧
      started ++ st'.queue = st.queue ++ retryJobs mf fid (retryCandidates st.db fid) ∧
      (retryJobs mf fid (retryCandidates st.db fid)).length ≤
        (retryCandidates st.db fid).length := by
  have hne1 : (retryCandidates (st.db.setFolderRateLimited fid false now) fid).isEmpty
      = false := by
    rw [List.isEmpty_eq_false]
    exact hne
  refine ⟨⟨(retryCandidates st.db fid).foldl
      (fun acc file => acc.updateFileStatus fid file.node_id .pending none none none)
      (st.db.setFolderRateLimited fid false now),
    (processQueue maxC st.activeDownloads
      (st.queue ++ retryJobs mf fid (retryCandidates st.db fid))).2.1,
    (processQueue maxC st.activeDownloads
      (st.queue ++ retryJobs mf fid (retryCandidates st.db fid))).1,
    cache1⟩,
    (processQueue maxC st.activeDownloads
      (st.queue ++ retryJobs mf fid (retryCandidates st.db fid))).2.2, ?_, ?_, ?_⟩
  · simp only [retryFolder, hg, hne1, hload]
    rfl
  · exact processQueue_partition maxC _ _
  · exact List.length_filterMap_le _ _

/-- Witness for C10: the count is 1 but no job resolves, so none is
enqueued. -/
theorem retryFolder_count_witness :
    ∃ st' started, retryFolder stRetryX 2 "F" (some mfEmpty) "t1" =
        .ok ((retryCandidates dbRetryX "F").length, st', started) ∧
      started ++ st'.queue = [] ++ retryJobs mfEmpty "F" (retryCandidates dbRetryX "F") ∧
      (retryJobs mfEmpty "F" (retryCandidates dbRetryX "F")).length ≤
        (retryCandidates dbRetryX "F").length :=
  retryFolder_count stRetryX 2 "F" (some mfEmpty) "t1" folderF mfEmpty
    (cacheSet [] "F" mfEmpty) rfl (by decide) rfl

/-- The reset fold, at the level of the files table: a batch of
key-targeted updates is one pointwise map. -/
theorem foldl_update_files (ds : List FileRow) : ∀ (db : Db),
    (ds.foldl (fun acc file =>
      acc.updateFileStatus file.folder_id file.node_id .pending none none none) db).files =
    db.files.map (fun f => if fileKey f ∈ ds.map fileKey then pendReset f else f) := by
  induction ds with
  | nil =>
    intro db
    simp
  | cons d ds ih =>
    intro db
    rw [List.foldl_cons, ih, show
      (db.updateFileStatus d.folder_id d.node_id .pending none none none).files =
        db.files.map (fun f =>
          if f.folder_id == d.folder_id && f.node_id == d.node_id then pendReset f else f)
      from rfl, List.map_map]
    apply List.map_congr_left
    intro f hf
    by_cases hk : fileKey f = fileKey d
    · have hc : (f.folder_id == d.folder_id && f.node_id == d.node_id) = true :=
        beq_iff_eq.mpr hk
      have hmem : fileKey f ∈ fileKey d :: ds.map fileKey := by
        rw [hk]
        exact List.mem_cons_self _ _
      simp only [Function.comp_apply, hc, if_true, List.map_cons]
      rw [if_pos hmem]
      split
      · rfl
      · rfl
    · have hc : (f.folder_id == d.folder_id && f.node_id == d.node_id) = false := by
        cases hb : (f.folder_id == d.folder_id && f.node_id == d.node_id) with
        | false => rfl
        | true => exact absurd (beq_iff_eq.mp (show (fileKey f == fileKey d) = true from hb)) hk
      have hmem : (fileKey f ∈ fileKey d :: ds.map fileKey) ↔ fileKey f ∈ ds.map fileKey := by
        simp [List.mem_cons, hk]
      simp only [Function.comp_apply, hc, List.map_cons]
      rw [if_neg Bool.false_ne_true, if_congr hmem rfl rfl]

/-- The reset fold never touches the folders table. -/
theorem foldl_update_folders (ds : List FileRow) : ∀ (db : Db),
    (ds.foldl (fun acc file =>
      acc.updateFileStatus file.folder_id file.node_id .pending none none none) db).folders =
    db.folders := by
  induction ds with
  | nil => intro db; rfl
  | cons d ds ih =>
    intro db
    rw [List.foldl_cons, ih]
    rfl

/-- Under the primary-key invariant, the startup reset rewrites the
files table pointwise: every `downloading` row becomes a clean
`pending` row, all other rows are untouched. -/
theorem reset_files_eq_map (db : Db) (hkeys : (db.files.map fileKey).Nodup) :
    db.resetInterruptedDownloads.1.files = db.files.map resetRow := by
  rw [show db.resetInterruptedDownloads.1 =
    (db.getFilesWithStatus .downloading).foldl (fun acc file =>
      acc.updateFileStatus file.folder_id file.node_id .pending none none none) db from rfl]
  rw [foldl_update_files]
  apply List.map_congr_left
  intro f hf
  by_cases hd : (f.status == FileStatus.downloading) = true
  · have hmem : fileKey f ∈ (db.getFilesWithStatus .downloading).map fileKey :=
      List.mem_map_of_mem fileKey (List.mem_filter.mpr ⟨hf, hd⟩)
    rw [if_pos hmem, resetRow, if_pos hd]
  · have hmem : fileKey f ∉ (db.getFilesWithStatus .downloading).map fileKey := by
      intro hmem
      obtain ⟨d, hd1, hd2⟩ := List.mem_map.mp hmem
      have hd3 := List.mem_filter.mp hd1
      have hde : d = f := List.inj_on_of_nodup_map hkeys hd3.1 hf hd2
      rw [hde] at hd3
      exact hd (hd3.2)
    rw [if_neg hmem, resetRow, if_neg hd]

/-- Folding `insertSet` keeps the accumulator duplicate-free. -/
theorem foldl_insertSet_nodup : ∀ (l seen : List String), seen.Nodup →
    (l.foldl insertSet seen).Nodup := by
  intro l
  induction l with
  | nil => intro seen h; exact h
  | cons x l ih =>
    intro seen h
    rw [List.foldl_cons]
    apply ih
    unfold insertSet
    split
    · exact h
    · rename_i hc
      rw [List.nodup_append]
      refine ⟨h, List.nodup_singleton x, ?_⟩
      intro a ha hax
      rw [List.mem_singleton] at hax
      subst hax
      exact hc (List.elem_iff.mpr ha)

/-- Membership through the `insertSet` fold. -/
theorem mem_foldl_insertSet : ∀ (l seen : List String) (y : String),
    y ∈ l.foldl insertSet seen ↔ y ∈ seen ∨ y ∈ l := by
  intro l
  induction l with
  | nil => intro seen y; simp
  | cons x l ih =>
    intro seen y
    rw [List.foldl_cons, ih]
    unfold insertSet
    split
    · rename_i hc
      have hx : x ∈ seen := List.elem_iff.mp hc
      simp only [List.mem_cons]
      constructor
      · rintro (h | h)
        · exact Or.inl h
        · exact Or.inr (Or.inr h)
      · rintro (h | h | h)
        · exact Or.inl h
        · exact Or.inl (h ▸ hx)
        · exact Or.inr h
    · simp only [List.mem_append, List.mem_singleton, List.mem_cons]
      tauto

/-- The collected folder-id list is duplicate-free. -/
theorem jsSetOrder_nodup (l : List String) : (jsSetOrder l).Nodup :=
  foldl_insertSet_nodup l [] List.nodup_nil

/-- The collected folder-id list has the same members as the input. -/
theorem mem_jsSetOrder (l : List String) (y : String) :
    y ∈ jsSetOrder l ↔ y ∈ l := by
  rw [jsSetOrder, mem_foldl_insertSet]
  simp

/-- Lemma: `flatMap` congruence on the members of the list. -/
theorem flatMap_congr_left {α β : Type} (l : List α) (f g : α → List β)
    (h : ∀ a ∈ l, f a = g a) : l.flatMap f = l.flatMap g := by
  induction l with
  | nil => rfl
  | cons a l ih =>
    rw [List.flatMap_cons, List.flatMap_cons, h a (List.mem_cons_self a l),
      ih (fun b hb => h b (List.mem_cons_of_mem a hb))]

/-- Lemma: `Map.set` does not disturb other keys of the cache. -/
theorem cacheGet_cacheSet_ne (cache : List (String × MegaNode)) (fid x : String)
    (mf : MegaNode) (h : x ≠ fid) :
    cacheGet (cacheSet cache fid mf) x = cacheGet cache x := by
  unfold cacheSet cacheGet
  split
  · rw [find?_map_stable]
    · cases hfind : cache.find? (fun p => p.1 == x) with
      | none => rfl
      | some e =>
        have hp := List.find?_some hfind
        have hex : e.1 = x := beq_iff_eq.mp hp
        have hne : e.1 ≠ fid := by
          rw [hex]
          exact h
        simp [hne]
    · intro a
      by_cases ha : (a.1 == fid) = true
      · have hae : a.1 = fid := beq_iff_eq.mp ha
        simp [ha, hae]
      · simp [ha]
  · rw [List.find?_append]
    have hnone : List.find? (fun p => p.1 == x) [(fid, mf)] = none := by
      have : ((fid, mf).1 == x) = false := by
        cases hb : (fid == x) with
        | false => rfl
        | true => exact absurd (beq_iff_eq.mp hb) (Ne.symm h)
      simp [List.find?, this]
    rw [hnone]
    cases cache.find? (fun p => p.1 == x) <;> rfl

/-- What a successful `ensureFolderLoaded` tells us: the handle it
returns is the effective one (cache hit, else fresh load), and the
cache it returns agrees with the old one on every other folder. -/
theorem ensureFolderLoaded_some (cache : List (String × MegaNode)) (fid : String)
    (loadFn : String → Option MegaNode) (mf : MegaNode)
    (cache' : List (String × MegaNode))
    (h : ensureFolderLoaded cache fid (loadFn fid) = some (mf, cache')) :
    effectiveHandle cache loadFn fid = some mf ∧
    ∀ x, x ≠ fid → cacheGet cache' x = cacheGet cache x := by
  unfold ensureFolderLoaded at h
  unfold effectiveHandle
  cases hc : cacheGet cache fid with
  | some m =>
    rw [hc] at h
    rw [Option.some.injEq, Prod.mk.injEq] at h
    obtain ⟨h1, h2⟩ := h
    subst h1
    subst h2
    exact ⟨rfl, fun x hx => rfl⟩
  | none =>
    rw [hc] at h
    cases hl : loadFn fid with
    | none => rw [hl] at h; cases h
    | some m =>
      rw [hl] at h
      rw [Option.some.injEq, Prod.mk.injEq] at h
      obtain ⟨h1, h2⟩ := h
      subst h1
      subst h2
      exact ⟨rfl, fun x hx => cacheGet_cacheSet_ne cache fid x m hx⟩

/-- The resume loop, folder by folder: over duplicate-free folder ids it
appends, per folder, exactly the jobs determined by the store and the
effective handle of the initial cache. -/
theorem resumeFolderLoop_queue (load : String → Option MegaNode) (db1 : Db)
    (pending : List FileRow) :
    ∀ (fids : List String), fids.Nodup →
      ∀ (cache : List (String × MegaNode)) (q : List DownloadTask),
      (resumeFolderLoop load db1 pending fids cache q).2 =
        q ++ fids.flatMap (fun fid =>
          resumeJobsFor db1 pending (effectiveHandle cache load fid) fid) := by
  intro fids
  induction fids with
  | nil =>
    intro _ cache q
    simp [resumeFolderLoop]
  | cons fid fids ih =>
    intro hnd cache q
    rw [List.nodup_cons] at hnd
    obtain ⟨hfid, hnd'⟩ := hnd
    rw [List.flatMap_cons]
    simp only [resumeFolderLoop]
    cases hg : db1.getFolder fid with
    | none =>
      rw [ih hnd' cache q]
      have hjobs : resumeJobsFor db1 pending (effectiveHandle cache load fid) fid = [] := by
        unfold resumeJobsFor
        rw [hg]
      rw [hjobs, List.nil_append]
    | some g =>
      cases hE : ensureFolderLoaded cache fid (load fid) with
      | none =>
        rw [ih hnd' cache q]
        have hnone : effectiveHandle cache load fid = none := by
          unfold ensureFolderLoaded at hE
          unfold effectiveHandle
          cases hc : cacheGet cache fid with
          | some m => rw [hc] at hE; cases hE
          | none =>
            rw [hc] at hE
            cases hl : load fid with
            | some m => rw [hl] at hE; cases hE
            | none => rfl
        have hjobs : resumeJobsFor db1 pending (effectiveHandle cache load fid) fid = [] := by
          unfold resumeJobsFor
          rw [hg, hnone]
        rw [hjobs, List.nil_append]
      | some pr =>
        obtain ⟨mf, cache'⟩ := pr
        obtain ⟨hh, hpres⟩ := ensureFolderLoaded_some cache fid load mf cache' hE
        rw [ih hnd' cache'
          (q ++ retryJobs mf fid (pending.filter (fun f => f.folder_id == fid))),
          List.append_assoc]
        congr 1
        have hjobs : resumeJobsFor db1 pending (effectiveHandle cache load fid) fid =
            retryJobs mf fid (pending.filter (fun f => f.folder_id == fid)) := by
          unfold resumeJobsFor
          rw [hg, hh]
        rw [hjobs]
        congr 1
        apply flatMap_congr_left
        intro x hx
        have hxne : x ≠ fid := fun hcon => hfid (hcon ▸ hx)
        have hhan : effectiveHandle cache' load x = effectiveHandle cache load x := by
          unfold effectiveHandle
          rw [hpres x hxne]
        rw [hhan]

/-- A job produced by `retryJobs` carries the folder id and the node id
of one of the candidate rows. -/
theorem retryJobs_mem_elim {mf : MegaNode} {fid : String} {rows : List FileRow}
    {t : DownloadTask} (h : t ∈ retryJobs mf fid rows) :
    t.folderId = fid ∧ ∃ f ∈ rows, f.node_id = t.nodeId := by
  simp only [retryJobs] at h
  obtain ⟨f, hf, hsome⟩ := List.mem_filterMap.mp h
  cases hres : mapGet (buildFileMap mf) f.node_id with
  | none => rw [hres] at hsome; cases hsome
  | some rf =>
    rw [hres, Option.map_some'] at hsome
    cases hsome
    exact ⟨rfl, f, hf, rfl⟩

/-- A candidate row whose node id resolves yields its job. -/
theorem retryJobs_mem_intro (mf : MegaNode) (fid : String) (rows : List FileRow)
    (f : FileRow) (rf : MegaNode) (hf : f ∈ rows)
    (hres : mapGet (buildFileMap mf) f.node_id = some rf) :
    (⟨fid, f.node_id, rf, f.name, f.size⟩ : DownloadTask) ∈ retryJobs mf fid rows := by
  simp only [retryJobs]
  exact List.mem_filterMap.mpr ⟨f, hf, by rw [hres, Option.map_some']⟩

/-- Jobs built from rows with duplicate-free node ids have
duplicate-free node ids. -/
theorem retryJobs_nodeIds_nodup (mf : MegaNode) (fid : String) :
    ∀ (rows : List FileRow), (rows.map (fun f => f.node_id)).Nodup →
    ((retryJobs mf fid rows).map (fun t => t.nodeId)).Nodup := by
  intro rows
  induction rows with
  | nil => intro h; simp [retryJobs]
  | cons f rows ih =>
    intro h
    rw [List.map_cons, List.nodup_cons] at h
    obtain ⟨h1, h2⟩ := h
    simp only [retryJobs, List.filterMap_cons]
    cases hres : mapGet (buildFileMap mf) f.node_id with
    | none =>
      simp only [Option.map_none']
      exact ih h2
    | some rf =>
      simp only [Option.map_some']
      rw [List.map_cons, List.nodup_cons]
      refine ⟨?_, ih h2⟩
      intro hmem
      obtain ⟨t, ht, hte⟩ := List.mem_map.mp hmem
      obtain ⟨-, ⟨x, hx, hxe⟩⟩ := retryJobs_mem_elim ht
      apply h1
      apply List.mem_map.mpr ⟨x, hx, ?_⟩
      rw [hxe, hte]

/-- Rows of one folder with duplicate-free composite keys have
duplicate-free node ids. -/
theorem nodup_snd_of_nodup_keys {l : List FileRow} (fid : String)
    (hfst : ∀ f ∈ l, f.folder_id = fid) (h : (l.map fileKey).Nodup) :
    (l.map (fun f => f.node_id)).Nodup := by
  induction l with
  | nil => simp
  | cons f l ih =>
    rw [List.map_cons, List.nodup_cons] at h ⊢
    obtain ⟨h1, h2⟩ := h
    refine ⟨?_, ih (fun x hx => hfst x (List.mem_cons_of_mem f hx)) h2⟩
    intro hmem
    obtain ⟨x, hx, hxe⟩ := List.mem_map.mp hmem
    apply h1
    apply List.mem_map.mpr ⟨x, hx, ?_⟩
    unfold fileKey
    rw [hxe, hfst x (List.mem_cons_of_mem f hx), hfst f (List.mem_cons_self f l)]

/-- Tasks of one folder with duplicate-free node ids have
duplicate-free keys. -/
theorem nodup_keys_of_nodup_nodeIds {l : List DownloadTask} (fid : String)
    (hfst : ∀ t ∈ l, t.folderId = fid)
    (h : (l.map (fun t => t.nodeId)).Nodup) : (l.map DownloadTask.key).Nodup := by
  induction l with
  | nil => simp
  | cons t l ih =>
    rw [List.map_cons, List.nodup_cons] at h ⊢
    refine ⟨?_, ih (fun x hx => hfst x (List.mem_cons_of_mem t hx)) h.2⟩
    intro hmem
    obtain ⟨x, hx, hxe⟩ := List.mem_map.mp hmem
    apply h.1
    exact List.mem_map.mpr ⟨x, hx, congrArg Prod.snd hxe⟩

/-- Every job the resume loop emits for folder `fid` belongs to `fid`. -/
theorem mem_resumeJobsFor_folderId {db1 : Db} {pending : List FileRow}
    {handle : Option MegaNode} {fid : String} {t : DownloadTask}
    (h : t ∈ resumeJobsFor db1 pending handle fid) : t.folderId = fid := by
  unfold resumeJobsFor at h
  cases hg : db1.getFolder fid with
  | none => rw [hg] at h; cases h
  | some g =>
    rw [hg] at h
    cases handle with
    | none => cases h
    | some mf => exact (retryJobs_mem_elim h).1

/-- Over duplicate-free folder ids and duplicate-free pending keys, the
jobs of the whole resume sweep have duplicate-free keys: no file is
enqueued twice. -/
theorem resume_flatMap_keys_nodup (db1 : Db) (pending : List FileRow)
    (h : String → Option MegaNode) (hkeys : (pending.map fileKey).Nodup) :
    ∀ (fids : List String), fids.Nodup →
    ((fids.flatMap (fun fid => resumeJobsFor db1 pending (h fid) fid)).map
      DownloadTask.key).Nodup := by
  intro fids
  induction fids with
  | nil =>
    intro _
    simp
  | cons fid fids ih =>
    intro hnd
    rw [List.nodup_cons] at hnd
    obtain ⟨hfid, hnd'⟩ := hnd
    rw [List.flatMap_cons, List.map_append, List.nodup_append]
    refine ⟨?_, ih hnd', ?_⟩
    · apply nodup_keys_of_nodup_nodeIds fid (fun t ht => mem_resumeJobsFor_folderId ht)
      unfold resumeJobsFor
      cases hg : db1.getFolder fid with
      | none => simp
      | some g =>
        cases hh : h fid with
        | none => simp
        | some mf =>
          apply retryJobs_nodeIds_nodup
          apply nodup_snd_of_nodup_keys fid
          · intro f hf
            exact beq_iff_eq.mp (List.mem_filter.mp hf).2
          · exact List.Nodup.sublist
              (List.Sublist.map fileKey (List.filter_sublist pending)) hkeys
    · intro k hk1 hk2
      obtain ⟨t, ht, hte⟩ := List.mem_map.mp hk1
      obtain ⟨t', ht', hte'⟩ := List.mem_map.mp hk2
      obtain ⟨fid', hfid', htt'⟩ := List.mem_flatMap.mp ht'
      have h1 : t.folderId = fid := mem_resumeJobsFor_folderId ht
      have h2 : t'.folderId = fid' := mem_resumeJobsFor_folderId htt'
      apply hfid
      have e1 : k.1 = fid := by rw [← hte]; exact h1
      have e2 : k.1 = fid' := by rw [← hte']; exact h2
      rw [e1.symm.trans e2]
      exact hfid'

/-- Every job of the resume sweep names a pending row. -/
theorem resume_flatMap_sound (db1 : Db) (pending : List FileRow)
    (h : String → Option MegaNode) (fids : List String) (t : DownloadTask)
    (ht : t ∈ fids.flatMap (fun fid => resumeJobsFor db1 pending (h fid) fid)) :
    ∃ f ∈ pending, fileKey f = t.key := by
  obtain ⟨fid, hfid, htt⟩ := List.mem_flatMap.mp ht
  have hfold := mem_resumeJobsFor_folderId htt
  unfold resumeJobsFor at htt
  cases hg : db1.getFolder fid with
  | none => rw [hg] at htt; cases htt
  | some g =>
    rw [hg] at htt
    cases hh : h fid with
    | none => rw [hh] at htt; cases htt
    | some mf =>
      rw [hh] at htt
      obtain ⟨-, f, hf, hnode⟩ := retryJobs_mem_elim htt
      have hmem := List.mem_filter.mp hf
      refine ⟨f, hmem.1, ?_⟩
      have hff : f.folder_id = fid := beq_iff_eq.mp hmem.2
      unfold fileKey DownloadTask.key
      rw [hff, hnode, hfold]

/-- Every pending row of a present folder whose handle is available and
whose node id resolves gets a job in the resume sweep. -/
theorem resume_flatMap_complete (db1 : Db) (pending : List FileRow)
    (h : String → Option MegaNode) (fids : List String) (f : FileRow)
    (hfids : f.folder_id ∈ fids) (hf : f ∈ pending)
    (hg : (db1.getFolder f.folder_id).isSome = true)
    (mf : MegaNode) (hh : h f.folder_id = some mf)
    (rf : MegaNode) (hres : mapGet (buildFileMap mf) f.node_id = some rf) :
    fileKey f ∈ (fids.flatMap (fun fid => resumeJobsFor db1 pending (h fid) fid)).map
      DownloadTask.key := by
  apply List.mem_map.mpr
  refine ⟨⟨f.folder_id, f.node_id, rf, f.name, f.size⟩, ?_, rfl⟩
  apply List.mem_flatMap.mpr
  refine ⟨f.folder_id, hfids, ?_⟩
  unfold resumeJobsFor
  cases hgf : db1.getFolder f.folder_id with
  | none => rw [hgf] at hg; cases hg
  | some g =>
    rw [hh]
    exact retryJobs_mem_intro mf f.folder_id _ f rf
      (List.mem_filter.mpr ⟨hf, by simp⟩) hres

/-- C5: from an empty queue and a store with duplicate-free composite
keys, the resume procedure (1) rewrites exactly the `downloading` rows
back to clean `pending` rows, (2) never enqueues a file twice — the
keys of all jobs it creates (started or still queued) are
duplicate-free, (3) every such job names a pending row, and (4) every
pending row of a present folder whose handle loads and whose node id
resolves in the fresh listing is enqueued (so, with (2), exactly
once). -/
theorem resume_spec (st : ServiceState) (maxC : Nat)
    (load : String → Option MegaNode)
    (hq : st.queue = [])
    (hkeys : (st.db.files.map fileKey).Nodup) :
    ((resumeDownloads st maxC load).1.db.files = st.db.files.map resetRow) ∧
    ((((resumeDownloads st maxC load).2 ++ (resumeDownloads st maxC load).1.queue).map
        DownloadTask.key).Nodup) ∧
    (∀ t ∈ (resumeDownloads st maxC load).2 ++ (resumeDownloads st maxC load).1.queue,
      ∃ f, f ∈ (resumeDownloads st maxC load).1.db.files ∧ fileKey f = t.key ∧
        f.status = .pending) ∧
    (∀ f ∈ (resumeDownloads st maxC load).1.db.files, f.status = .pending →
      ∀ g, st.db.getFolder f.folder_id = some g →
      ∀ mf cache', ensureFolderLoaded st.folderCache f.folder_id (load f.folder_id)
          = some (mf, cache') →
      ∀ rf, mapGet (buildFileMap mf) f.node_id = some rf →
        fileKey f ∈ ((resumeDownloads st maxC load).2 ++
          (resumeDownloads st maxC load).1.queue).map DownloadTask.key) := by
  have hdbfiles : st.db.resetInterruptedDownloads.1.files = st.db.files.map resetRow :=
    reset_files_eq_map st.db hkeys
  have hpkeys : (((st.db.resetInterruptedDownloads.1.getFilesWithStatus .pending).map
      fileKey)).Nodup := by
    apply List.Nodup.sublist
      (List.Sublist.map fileKey (List.filter_sublist st.db.resetInterruptedDownloads.1.files))
    rw [hdbfiles, List.map_map]
    have hck : fileKey ∘ resetRow = fileKey := by
      funext f
      show fileKey (resetRow f) = fileKey f
      unfold resetRow
      split
      · rfl
      · rfl
    rw [hck]
    exact hkeys
  have hr0 : (resumeFolderLoop load st.db.resetInterruptedDownloads.1
      (st.db.resetInterruptedDownloads.1.getFilesWithStatus .pending)
      (jsSetOrder ((st.db.resetInterruptedDownloads.1.getFilesWithStatus .pending).map
        (fun f => f.folder_id)))
      st.folderCache st.queue).2 =
      st.queue ++ (jsSetOrder ((st.db.resetInterruptedDownloads.1.getFilesWithStatus
        .pending).map (fun f => f.folder_id))).flatMap (fun fid =>
          resumeJobsFor st.db.resetInterruptedDownloads.1
            (st.db.resetInterruptedDownloads.1.getFilesWithStatus .pending)
            (effectiveHandle st.folderCache load fid) fid) :=
    resumeFolderLoop_queue load _ _ _ (jsSetOrder_nodup _) st.folderCache st.queue
  have hall : (resumeDownloads st maxC load).2 ++ (resumeDownloads st maxC load).1.queue
      = (jsSetOrder ((st.db.resetInterruptedDownloads.1.getFilesWithStatus
        .pending).map (fun f => f.folder_id))).flatMap (fun fid =>
          resumeJobsFor st.db.resetInterruptedDownloads.1
            (st.db.resetInterruptedDownloads.1.getFilesWithStatus .pending)
            (effectiveHandle st.folderCache load fid) fid) := by
    have h1 := processQueue_partition maxC
      ((resumeFolderLoop load st.db.resetInterruptedDownloads.1
        (st.db.resetInterruptedDownloads.1.getFilesWithStatus .pending)
        (jsSetOrder ((st.db.resetInterruptedDownloads.1.getFilesWithStatus .pending).map
          (fun f => f.folder_id)))
        st.folderCache st.queue).2) st.activeDownloads
    rw [show (resumeDownloads st maxC load).2 = (processQueue maxC st.activeDownloads
        ((resumeFolderLoop load st.db.resetInterruptedDownloads.1
          (st.db.resetInterruptedDownloads.1.getFilesWithStatus .pending)
          (jsSetOrder ((st.db.resetInterruptedDownloads.1.getFilesWithStatus .pending).map
            (fun f => f.folder_id)))
          st.folderCache st.queue).2)).2.2 from rfl,
      show (resumeDownloads st maxC load).1.queue = (processQueue maxC st.activeDownloads
        ((resumeFolderLoop load st.db.resetInterruptedDownloads.1
          (st.db.resetInterruptedDownloads.1.getFilesWithStatus .pending)
          (jsSetOrder ((st.db.resetInterruptedDownloads.1.getFilesWithStatus .pending).map
            (fun f => f.folder_id)))
          st.folderCache st.queue).2)).2.1 from rfl,
      h1, hr0, hq, List.nil_append]
  refine ⟨hdbfiles, ?_, ?_, ?_⟩
  · rw [hall]
    exact resume_flatMap_keys_nodup _ _ _ hpkeys _ (jsSetOrder_nodup _)
  · intro t ht
    rw [hall] at ht
    obtain ⟨f, hfp, hfk⟩ := resume_flatMap_sound _ _ _ _ t ht
    have hmf := List.mem_filter.mp hfp
    exact ⟨f, hmf.1, hfk, beq_iff_eq.mp hmf.2⟩
  · intro f hfdb hstat g hgf mf cache' hload rf hres
    rw [hall]
    have hfp : f ∈ st.db.resetInterruptedDownloads.1.getFilesWithStatus .pending :=
      List.mem_filter.mpr ⟨hfdb, by rw [hstat]; rfl⟩
    apply resume_flatMap_complete _ _ _ _ f ?_ hfp ?_ mf ?_ rf hres
    · exact (mem_jsSetOrder _ _).mpr (List.mem_map_of_mem _ hfp)
    · have hfold : st.db.resetInterruptedDownloads.1.getFolder f.folder_id =
          st.db.getFolder f.folder_id :=
        Db.getFolder_congr
          (foldl_update_folders (st.db.getFilesWithStatus .downloading) st.db) f.folder_id
      rw [hfold, hgf]
      rfl
    · exact (ensureFolderLoaded_some st.folderCache f.folder_id load mf cache' hload).1

/-- Witness for C5: resume after a simulated crash with one
`downloading` and one `pending` file. -/
theorem resume_spec_witness :
    ((resumeDownloads stResume 2 loadResume).1.db.files =
      stResume.db.files.map resetRow) ∧
    ((((resumeDownloads stResume 2 loadResume).2 ++
        (resumeDownloads stResume 2 loadResume).1.queue).map DownloadTask.key).Nodup) ∧
    (∀ t ∈ (resumeDownloads stResume 2 loadResume).2 ++
        (resumeDownloads stResume 2 loadResume).1.queue,
      ∃ f, f ∈ (resumeDownloads stResume 2 loadResume).1.db.files ∧
        fileKey f = t.key ∧ f.status = .pending) ∧
    (∀ f ∈ (resumeDownloads stResume 2 loadResume).1.db.files, f.status = .pending →
      ∀ g, stResume.db.getFolder f.folder_id = some g →
      ∀ mf cache', ensureFolderLoaded stResume.folderCache f.folder_id
          (loadResume f.folder_id) = some (mf, cache') →
      ∀ rf, mapGet (buildFileMap mf) f.node_id = some rf →
        fileKey f ∈ ((resumeDownloads stResume 2 loadResume).2 ++
          (resumeDownloads stResume 2 loadResume).1.queue).map DownloadTask.key) :=
  resume_spec stResume 2 loadResume rfl (by decide)

end MegaBridge
